import Mathlib

/-!
Verification of the Landis+Gyr SML reader (`landis-sml.py`) against its
natural-language specification.

The development shallowly embeds the Python source:

* the serial device is modelled as an oracle `Ser`: the list of byte chunks
  that the successive `ser.read_until` / `ser.read` calls return (an empty
  oracle models a device whose reads all time out and return `b""`);
* bytes are `Nat`, byte strings are `List Nat`;
* `read_sml`, the Redis queue operations (`lpush` / `rpop` / `rpush`), the
  `dosml` filter and the `SendInflux` worker loop body are translated
  function by function;
* Python numbers are modelled exactly in `ℚ` (the embedding treats Python's
  arithmetic as exact), `round(x, 1)` as round-half-to-even at one decimal.
-/

namespace Landis

/-- A serial byte source, modelled by the successive results of its read
calls: each `read_until`/`read` call consumes the next chunk.  An exhausted
oracle yields `[]`, exactly like a timed-out read returning `b""`. -/
structure Ser where
  reads : List (List Nat)
deriving DecidableEq, Repr

/-- Pop the next read result from the source (empty read on exhaustion). -/
def nextRead : Ser → List Nat × Ser
  | ⟨[]⟩ => ([], ⟨[]⟩)
  | ⟨r :: rs⟩ => (r, ⟨rs⟩)

/-- `escapeSequence = b'\x1b\x1b\x1b\x1b'` -/
def escapeSequence : List Nat := [0x1b, 0x1b, 0x1b, 0x1b]

/-- `startMessage = b'\x01\x01\x01\x01'` -/
def startMessage : List Nat := [0x01, 0x01, 0x01, 0x01]

/-- `startSyn = escapeSequence + startMessage` (the 8-byte start marker). -/
def startSyn : List Nat := escapeSequence ++ startMessage

/-- `endMsg = escapeSequence + b'\x1a'` (the 5-byte end-marker prefix). -/
def endMsg : List Nat := escapeSequence ++ [0x1a]

/-- Python `bytes.find(pat)`: index of the first occurrence of `pat` as a
contiguous sublist, `none` when absent (`find` returns `-1` there; the
source only calls it under an `in` guard, so `Option` is faithful). -/
def findSub (pat : List Nat) : List Nat → Option Nat
  | [] => if pat.isPrefixOf ([] : List Nat) then some 0 else none
  | a :: t =>
    if pat.isPrefixOf (a :: t) then some 0
    else (findSub pat t).map (· + 1)

/-- The start-search loop of `read_sml` (`while not start_found and
max_read > 0`).  State: current `d_start`, the `start_found` flag and the
remaining attempts (`max_read`).  Returns the final `d_start`, the flag and
the source. -/
def startLoop (ser : Ser) (dstart : List Nat) (found : Bool) :
    Nat → List Nat × Bool × Ser
  | 0 => (dstart, found, ser)
  | fuel + 1 =>
    if found then (dstart, found, ser)
    else
      let (d, ser') := nextRead ser
      if d = startSyn then
        startLoop ser' d true fuel
      else if d.length > 8 then
        match findSub startSyn d with
        | some pos => startLoop ser' (d.drop pos) true fuel
        | none => startLoop ser' d false fuel
      else
        startLoop ser' d false fuel

/-- `read_sml(ser)`: search for the start marker (at most 5 attempts), then
unconditionally `read_until(endMsg)` and `read(3)` and return the
concatenation `d_start + d_frame + d_end`.  Note that, as in the source,
nothing branches on `start_found` after the loop and there is no `None` /
error return. -/
def read_sml (ser : Ser) : List Nat × Ser :=
  let (dstart, _found, ser1) := startLoop ser [] false 5
  let (dframe, ser2) := nextRead ser1
  let (dend, ser3) := nextRead ser2
  (dstart ++ dframe ++ dend.take 3, ser3)

/-- Python truthiness of a `bytes` value: nonempty. -/
def pyTruthyBytes (b : List Nat) : Bool := !b.isEmpty

/-- The error assignment of one producer-loop iteration in `main`:
`if smlframe: ... else: error = "ERR_MESG"`. -/
def producerError (smlframe : List Nat) : Option String :=
  if pyTruthyBytes smlframe then none else some "ERR_MESG"

/-! ## The Redis list used as the per-sink delivery queue

A Redis list is written with its `lpush` end on the left, so the Lean list
head is the `lpush` side and the Lean list last element is the `rpop` /
`rpush` side.  The producer (`main`) enqueues with
`redis_con.lpush('stromwertinfluxdb', item)`; the `SendInflux` worker
dequeues with `rpop` and, on failed delivery, re-enqueues with `rpush`. -/

/-- Redis `LPUSH`: insert at the left end (producer side). -/
def lpush {α : Type} (a : α) (q : List α) : List α := a :: q

/-- Redis `RPUSH`: insert at the right end (the same end `RPOP` takes
from).  This is what the worker calls to requeue a failed item. -/
def rpush {α : Type} (a : α) (q : List α) : List α := q ++ [a]

/-- Redis `RPOP`: remove and return the rightmost element (`none` when the
list is empty), together with the remaining list. -/
def rpop {α : Type} (q : List α) : Option α × List α :=
  (q.getLast?, q.dropLast)

/-! ## The `SendInflux` worker loop body -/

/-- One observable action of the worker loop body. -/
inductive WAct : Type where
  | wPopEmpty : WAct
  | wPop (item : String) : WAct
  | wWrite : WAct
  | wRequeue (item : String) : WAct
  | wSleep (secs : Nat) : WAct
deriving DecidableEq, Repr

/-- `SendInflux.sendinflux`: performs the Influx write and catches *any*
exception (`except Exception`), returning `False` on failure and `True` on
success; it never lets an exception escape.  The outcome of the underlying
`write_api.write` call is the `Except` argument. -/
def sendinflux (writeOutcome : Except String Unit) : Bool :=
  match writeOutcome with
  | .ok _ => true
  | .error _ => false

/-- One iteration of `SendInflux.run`'s `while True` body, parametrised by
the outcome the Influx write would have.  Returns the new queue state and
the list of actions performed, in order. -/
def runIter (q : List String) (writeOutcome : Except String Unit) :
    List String × List WAct :=
  match rpop q with
  | (none, _) => (q, [WAct.wPopEmpty, WAct.wSleep 1])
  | (some item, q') =>
    if sendinflux writeOutcome then
      (q', [WAct.wPop item, WAct.wWrite])
    else
      (rpush item q', [WAct.wPop item, WAct.wWrite, WAct.wRequeue item,
        WAct.wSleep 2])

/-! ## Queue traces (producer `lpush` interleaved with worker iterations) -/

/-- An operation on one sink's queue: a producer `push` or one worker
iteration whose delivery attempt succeeds or fails. -/
inductive QOp (α : Type) : Type where
  | push (a : α) : QOp α
  | work (succeed : Bool) : QOp α
deriving DecidableEq, Repr

/-- Step a (queue, delivered-items) pair by one operation, following the
source: `push` is the producer's `lpush`; `work` is one `SendInflux.run`
iteration, which `rpop`s, and on failure `rpush`es the popped item back
before sleeping, on success records the delivery. -/
def stepQ {α : Type} : List α × List α → QOp α → List α × List α
  | (q, del), .push a => (lpush a q, del)
  | (q, del), .work s =>
    match rpop q with
    | (none, _) => (q, del)
    | (some item, q') => if s then (q', del ++ [item]) else (rpush item q', del)

/-- Run a finite trace of queue operations from an initial queue, with no
deliveries recorded yet. -/
def runQ {α : Type} (init : List α) (ops : List (QOp α)) : List α × List α :=
  ops.foldl stepQ (init, [])

/-- The items pushed by a trace, in order. -/
def pushedOf {α : Type} (ops : List (QOp α)) : List α :=
  ops.filterMap fun op =>
    match op with
    | .push a => some a
    | .work _ => none

/-! ## `dosml`: decoding records to graphite/influx queue items

The external decoder (`smllib`) hands `dosml` a list of records, each with
an OBIS code, an integer mantissa (`value`) and a power-of-ten scale
exponent (`scaler`).  Python arithmetic is modelled exactly in `ℚ`;
`round(x, 1)` is Python's round-half-to-even at one decimal. -/

/-- One entry of `parsed_msgs[1].message_body.val_list` as `dosml` uses it:
OBIS code, integer mantissa, scale exponent. -/
structure SmlListEntry : Type where
  obis : String
  value : Int
  scaler : Int
deriving DecidableEq, Repr

/-- The smllib `OBIS_NAMES` table (an external collaborator's constant),
restricted to the standard codes relevant here; it contains every code of
`OBIS_MAP_GRAPHITE` and more. -/
def OBIS_NAMES_KEYS : List String :=
  ["0100000009ff", "0100010800ff", "0100020800ff", "0100100700ff",
   "0100240700ff", "0100380700ff", "01004c0700ff"]

/-- The configured code→name map `OBIS_MAP_GRAPHITE` of the source. -/
def OBIS_MAP_GRAPHITE : List (String × String) :=
  [("0100010800ff", "Verbrauch.total"),
   ("0100020800ff", "Einspeisung.total"),
   ("0100100700ff", "Wirkleistung.aktuell")]

/-- Python dict lookup on an association list (`d[k]` guarded by `k in d`). -/
def assocLookup (s : String) : List (String × String) → Option String
  | [] => none
  | (k, v) :: t => if s = k then some v else assocLookup s t

/-- Python `10 ** s` for an integer exponent `s` (exact, in `ℚ`). -/
def tenPow (s : Int) : ℚ :=
  match s with
  | .ofNat n => (10 : ℚ) ^ n
  | .negSucc n => 1 / (10 : ℚ) ^ (n + 1)

/-- Python's `round` to the nearest integer: round-half-to-even. -/
def pyRoundHalfEven (y : ℚ) : Int :=
  let n := ⌊y⌋
  let f := y - n
  if f < 1 / 2 then n
  else if 1 / 2 < f then n + 1
  else if n % 2 = 0 then n else n + 1

/-- Python's `round(y, 1)`: round-half-to-even at one decimal. -/
def pyRound1 (y : ℚ) : ℚ := (pyRoundHalfEven (y * 10) : ℚ) / 10

/-- One produced metric, before string rendering: the mapped name, the
rounded value in tenths (`k` with value `k / 10`), and whether Python
computed it as a float (`scaler < 0`) or an int (`scaler ≥ 0`) — the flag
only affects `str()` rendering. -/
structure GFrame : Type where
  name : String
  k : Int
  isFloat : Bool
deriving DecidableEq, Repr

/-- The value a `GFrame` carries: `round(value * 10 ** scaler, 1)`. -/
def gValue (f : GFrame) : ℚ := (f.k : ℚ) / 10

/-- Build the metric for one matching record:
`value = round(list_entry.value * (10 ** list_entry.scaler), 1)`. -/
def mkFrame (e : SmlListEntry) (name : String) : GFrame :=
  ⟨name, pyRoundHalfEven ((e.value : ℚ) * tenPow e.scaler * 10),
    decide (e.scaler < 0)⟩

/-- The record loop of `dosml`: for each `list_entry`, if its code is in
`OBIS_NAMES` the value is computed, and if the code is also in
`OBIS_MAP_GRAPHITE` a metric is yielded; all other records are skipped. -/
def dosmlFrames (entries : List SmlListEntry) : List GFrame :=
  entries.filterMap fun e =>
    if e.obis ∈ OBIS_NAMES_KEYS then
      match assocLookup e.obis OBIS_MAP_GRAPHITE with
      | some name => some (mkFrame e name)
      | none => none
    else none

/-! ## String rendering (`str()` and the f-string of `dosml`) -/

/-- Decimal digits, fuel-bounded so the kernel can evaluate it (any
`fuel > n` yields the digits of `n`, most significant first). -/
def natCharsAux : Nat → Nat → List Char
  | 0, _ => []
  | fuel + 1, n =>
    if n < 10 then [Char.ofNat (48 + n)]
    else natCharsAux fuel (n / 10) ++ [Char.ofNat (48 + n % 10)]

/-- Decimal digits of a natural number, most significant first
(the digits of Python `str(n)`). -/
def natChars (n : Nat) : List Char := natCharsAux (n + 1) n

/-- Python `str` of an int: optional sign then digits. -/
def intChars (z : Int) : List Char :=
  (if z < 0 then ['-'] else []) ++ natChars z.natAbs

/-- Python `str` of a float holding `k / 10` exactly: optional sign,
integer digits, `'.'`, one tenths digit (so `str(1234.0) = "1234.0"`). -/
def floatChars (k : Int) : List Char :=
  (if k < 0 then ['-'] else []) ++
    natChars (k.natAbs / 10) ++ ['.'] ++ natChars (k.natAbs % 10)

/-- `str(round(...))` as `dosml` interpolates it: float rendering when the
scaler was negative, int rendering (of `k / 10`, exact there) otherwise. -/
def valChars (f : GFrame) : List Char :=
  if f.isFloat then floatChars f.k else intChars (f.k.fdiv 10)

/-- The first field of the produced item: `Strom.` followed by the mapped
name. -/
def metricChars (f : GFrame) : List Char :=
  "Strom.".data ++ f.name.data

/-- The f-string of `dosml`:
`f'Strom.{OBIS_MAP_GRAPHITE[obis]} {value} {ts}'`, with the already
rendered timestamp passed in. -/
def renderFrame (ts : List Char) (f : GFrame) : List Char :=
  metricChars f ++ [' '] ++ valChars f ++ [' '] ++ ts

/-- `dosml` proper: the rendered queue items, one per matching record. -/
def dosml (entries : List SmlListEntry) (ts : List Char) : List (List Char) :=
  (dosmlFrames entries).map (renderFrame ts)

/-! ## The consumer's string parsing (`split`, `split('.')`, `float`) -/

/-- Split on a separator character, keeping empty pieces: Python
`s.split(sep)` for a one-character `sep` (the consumer's
`metric.split('.')`). -/
def splitOnCh (sep : Char) : List Char → List (List Char)
  | [] => [[]]
  | c :: t =>
    let r := splitOnCh sep t
    if c = sep then [] :: r
    else
      match r with
      | [] => [[c]]
      | h :: t' => (c :: h) :: t'

/-- Python `s.split()` with no argument, for strings whose only whitespace
is the space character (true of every string this program builds): split
on spaces and drop empty pieces. -/
def pySplitWs (s : List Char) : List (List Char) :=
  (splitOnCh ' ' s).filter fun t => !t.isEmpty

/-- A string Python's `float()` accepts (a sublanguage of it): optional
`'-'`, one or more digits, optionally a `'.'` followed by one or more
digits. -/
def floatLit (s : List Char) : Bool :=
  let t := if s.head? = some '-' then s.tail else s
  let rest := t.dropWhile Char.isDigit
  !(t.takeWhile Char.isDigit).isEmpty &&
    (rest.isEmpty ||
      (rest.head? = some '.' && !rest.tail.isEmpty &&
        rest.tail.all Char.isDigit))

/-! ## `open_serial` and the fatal path of `main`

`from datetime import datetime` binds the *class* `datetime`, so the
expression `datetime.datetime` in `main`'s final lines is an attribute
lookup of `"datetime"` on that class, which raises `AttributeError`. -/

/-- The attributes of the `datetime` class that `main`'s last lines could
mean (`"datetime"` is not one of them: the class does not contain itself). -/
def datetimeClassAttrs : List String :=
  ["now", "today", "fromtimestamp", "strftime", "astimezone", "isoformat",
   "timestamp", "combine", "min", "max", "utcnow"]

/-- Python attribute lookup on the `datetime` class: `ok` for an existing
attribute, `AttributeError` otherwise. -/
def pyGetattrDatetime (name : String) : Except String Unit :=
  if name ∈ datetimeClassAttrs then Except.ok ()
  else Except.error ("AttributeError: type object 'datetime.datetime' " ++
    "has no attribute '" ++ name ++ "'")

/-- `open_serial(device)`: on a `serial.SerialException` it prints
`Exception: {e}` and returns `None`; on success it returns the handle.
The argument is the outcome of the `serial.Serial(...)` constructor.
Result: (lines printed, returned value). -/
def open_serial (openOutcome : Except String Unit) :
    List String × Option Unit :=
  match openOutcome with
  | .ok _ => ([], some ())
  | .error e => (["Exception: " ++ e], none)

/-- The tail of `main` when `open_serial` fails: `error = "ERR_DEVICE"` is
set, then `now = datetime.datetime.now().strftime(...)` is evaluated.  The
result is (lines printed, `ok` if `print(now, error)` was reached, or the
uncaught exception). -/
def mainDeviceFail (openError : String) : List String × Except String Unit :=
  let (printed, fd) := open_serial (.error openError)
  match fd with
  | some _ => (printed, .ok ())
  | none =>
    match pyGetattrDatetime "datetime" with
    | .error attrErr => (printed, .error attrErr)
    | .ok _ => (printed ++ ["<now> ERR_DEVICE"], .ok ())

/-! # Theorems -/

/-! ## C2 — where `requeue` puts a failed item -/

/-- C2 counterexample: with `["a"]` already queued, requeuing `"b"`
(`rpush`, as `SendInflux.run` does) makes `"b"` the very next item `rpop`
returns — the pre-existing item `"a"` is *not* popped before the requeued
item, refuting the claim that requeue appends at the tail of the queue. -/
theorem C2_requeue_not_tail_cex :
    (rpop (rpush "b" ["a"])).1 = some "b" ∧ ("a" : String) ≠ "b" := by
  constructor
  · rfl
  · decide

/-- C2 (amended): `requeue` re-appends at the *head* (the `rpop` end) of
the per-sink queue: immediately after a requeue the requeued item is the
next one popped, before every item that was already in the queue, so a
failing item is retried before later items rather than after them. -/
theorem C2_requeue_head (q : List String) (item : String) :
    rpop (rpush item q) = (some item, q) := by
  simp [rpop, rpush]

/-! ## C3 — no item is lost (multiset conservation) -/

/-- Helper: from a successful `rpop`, the queue is its remainder plus the
popped item. -/
theorem coe_eq_dropLast_add {α : Type} (q : List α) (item : α)
    (hq : q.getLast? = some item) :
    (q : Multiset α) = (q.dropLast : Multiset α) + {item} := by
  have h := List.dropLast_append_getLast? item (by rw [hq]; rfl)
  calc (q : Multiset α)
      = ((q.dropLast ++ [item] : List α) : Multiset α) := by rw [h]
    _ = (q.dropLast : Multiset α) + {item} := by simp [← Multiset.coe_add]

/-- Helper: one `stepQ` conserves the multiset `queue + delivered`, up to
the item a `push` adds. -/
theorem stepQ_conserve {α : Type} (s : List α × List α) (op : QOp α) :
    ((stepQ s op).1 : Multiset α) + ((stepQ s op).2 : Multiset α)
      = (s.1 : Multiset α) + (s.2 : Multiset α)
        + (pushedOf [op] : Multiset α) := by
  obtain ⟨q, del⟩ := s
  cases op with
  | push a =>
    simp only [stepQ, lpush, pushedOf, List.filterMap]
    simp [← Multiset.cons_coe, ← Multiset.singleton_add, ← Multiset.coe_add]
    abel
  | work b =>
    rcases hq : q.getLast? with _ | item
    · simp only [stepQ, rpop, hq, pushedOf, List.filterMap]
      simp
    · have hsplit := coe_eq_dropLast_add q item hq
      cases b
      · simp only [stepQ, rpop, hq, rpush, pushedOf, List.filterMap,
          Bool.false_eq_true, if_false]
        rw [hsplit, ← Multiset.coe_add, Multiset.coe_singleton]
        simp [← Multiset.coe_add]
      · simp only [stepQ, rpop, hq, pushedOf, List.filterMap, if_true]
        rw [hsplit, ← Multiset.coe_add, Multiset.coe_singleton]
        simp [← Multiset.coe_add]
        abel

/-- Helper: conservation along a whole trace, from any start state. -/
theorem foldl_stepQ_conserve {α : Type} :
    ∀ (ops : List (QOp α)) (s : List α × List α),
    ((ops.foldl stepQ s).1 : Multiset α) + ((ops.foldl stepQ s).2 : Multiset α)
      = (s.1 : Multiset α) + (s.2 : Multiset α)
        + (pushedOf ops : Multiset α) := by
  intro ops
  induction ops with
  | nil => intro s; simp [pushedOf]
  | cons op t ih =>
    intro s
    have hsplit : pushedOf (op :: t) = pushedOf [op] ++ pushedOf t := by
      cases op <;> simp [pushedOf]
    simp only [List.foldl_cons]
    rw [ih (stepQ s op), stepQ_conserve, hsplit]
    simp [← Multiset.coe_add]
    abel

/-- C3: for any finite trace of producer pushes and worker iterations
(each of which pops, and on failure requeues the popped item before
sleeping), the multiset `queue + delivered` is conserved: it always equals
the initial queue plus everything pushed.  A successful delivery moves
exactly one item from the queue to `delivered`; no item is ever lost. -/
theorem C3_no_item_lost {α : Type} (init : List α) (ops : List (QOp α)) :
    ((runQ init ops).1 : Multiset α) + ((runQ init ops).2 : Multiset α)
      = (init : Multiset α) + (pushedOf ops : Multiset α) := by
  have h := foldl_stepQ_conserve ops (init, [])
  simpa [runQ] using h

/-! ## C6 — failed delivery: requeue, then fixed 2-second backoff -/

/-- C6: whenever the worker has popped an item and the Influx write raises
any exception, the caught failure makes the worker requeue the item
(`rpush`) and only then sleep the fixed 2 seconds; the iteration returns
normally (the exception is swallowed by `sendinflux`), so the worker
thread survives.  The action list records the order: pop, write attempt,
requeue, sleep 2. -/
theorem C6_fail_requeues_then_sleeps (q q' : List String) (item err : String)
    (hpop : rpop q = (some item, q')) :
    runIter q (Except.error err)
      = (rpush item q',
         [WAct.wPop item, WAct.wWrite, WAct.wRequeue item, WAct.wSleep 2]) := by
  simp only [runIter, hpop, sendinflux]
  rfl

/-- C6 witness at a concrete queue and failure. -/
theorem C6_fail_requeues_then_sleeps_witness :
    rpop ["x"] = (some "x", ([] : List String)) ∧
    runIter ["x"] (Except.error "boom")
      = (["x"],
         [WAct.wPop "x", WAct.wWrite, WAct.wRequeue "x", WAct.wSleep 2]) :=
  ⟨rfl, C6_fail_requeues_then_sleeps ["x"] [] "x" "boom" rfl⟩

/-! ## Frame reader: the start-search loop without a start marker -/

/-- Helper: `nextRead` in `headD`/`tail` form. -/
theorem nextRead_eq (reads : List (List Nat)) :
    nextRead ⟨reads⟩ = (reads.headD [], ⟨reads.tail⟩) := by
  cases reads <;> rfl

/-- Helper: one fruitless start-search attempt just consumes a read. -/
theorem startLoop_step_noStart (reads : List (List Nat)) (d : List Nat)
    (n : Nat) (hc1 : reads.headD [] ≠ startSyn)
    (hc2 : findSub startSyn (reads.headD []) = none) :
    startLoop ⟨reads⟩ d false (n + 1)
      = startLoop ⟨reads.tail⟩ (reads.headD []) false n := by
  rw [startLoop]
  rw [if_neg (by simp : ¬(false = true))]
  rw [nextRead_eq]
  simp only []
  rw [if_neg hc1]
  by_cases hl : (reads.headD []).length > 8
  · rw [if_pos hl, hc2]
  · rw [if_neg hl]

/-- Helper: if none of the first `fuel` reads matches or contains the start
marker, the loop exhausts its attempts, leaves `start_found` false, and
`d_start` holds the bytes of the last read. -/
theorem startLoop_noStart :
    ∀ (fuel : Nat) (reads : List (List Nat)) (d : List Nat), 0 < fuel →
    (∀ c ∈ reads.take fuel, c ≠ startSyn ∧ findSub startSyn c = none) →
    startLoop ⟨reads⟩ d false fuel
      = (reads.getD (fuel - 1) [], false, ⟨reads.drop fuel⟩) := by
  intro fuel
  induction fuel with
  | zero => omega
  | succ n ih =>
    intro reads d _ h
    have hhead : reads.headD [] ≠ startSyn ∧
        findSub startSyn (reads.headD []) = none := by
      cases reads with
      | nil => exact ⟨by decide, by decide⟩
      | cons r rs => exact h r (by simp)
    rw [startLoop_step_noStart reads d n hhead.1 hhead.2]
    cases hn : n with
    | zero =>
      cases reads with
      | nil => simp [startLoop]
      | cons r rs => simp [startLoop]
    | succ m =>
      rw [← hn]
      have htail : ∀ c ∈ reads.tail.take n,
          c ≠ startSyn ∧ findSub startSyn c = none := by
        intro c hc
        apply h
        cases reads with
        | nil => simp at hc
        | cons r rs =>
          simp only [List.tail_cons] at hc
          simp only [List.take_succ_cons]
          exact List.mem_cons_of_mem r hc
      rw [ih reads.tail (reads.headD []) (by omega) htail]
      cases reads with
      | nil => simp
      | cons r rs => simp [hn]

/-- Helper: the head (with default) of a dropped list is `getD`. -/
theorem headD_drop (n : Nat) (l : List (List Nat)) :
    (l.drop n).headD [] = l.getD n [] := by
  induction n generalizing l with
  | zero => cases l <;> rfl
  | succ m ih =>
    cases l with
    | nil => rfl
    | cons x xs => simp [ih xs]

/-! ## C1 — exhausting the 5 start-search attempts -/

/-- C1: a source whose five reads are all `[0]` (no start marker anywhere)
followed by further data.  `read_sml` does *not* return a `NoStart` error
or `None` (contradicting its own docstring's `None` on failure): it falls
through, consumes the two post-loop reads — a partial pseudo-frame — and
returns their bytes as a truthy frame which `main` then processes as a
success (`producerError` is `none`). -/
theorem C1_no_start_returns_bytes :
    (read_sml ⟨[[0], [0], [0], [0], [0], [1, 2, 3], [4, 5, 6]]⟩).1
      = [0, 1, 2, 3, 4, 5, 6]
    ∧ pyTruthyBytes [0, 1, 2, 3, 4, 5, 6] = true
    ∧ producerError
        (read_sml ⟨[[0], [0], [0], [0], [0], [1, 2, 3], [4, 5, 6]]⟩).1
      = none := by
  decide

/-! ## C9 — `read_sml` is total; when is `ERR_MESG` reachable? -/

/-- C9 counterexample: on a source whose reads all return no bytes,
`read_sml` returns `b""`, which is falsy, so `main`'s
`error = "ERR_MESG"` branch *is* taken — the claim that this branch is
unreachable is false. -/
theorem C9_err_mesg_reachable_cex :
    producerError (read_sml ⟨[]⟩).1 = some "ERR_MESG"
    ∧ (read_sml ⟨[]⟩).1 = [] := by
  decide

/-- C9 (amended): `read_sml` is total and never returns `None`: even when
all 5 start-search attempts find no start marker it falls through and
returns `lastRead ++ frameRead ++ trailerRead` (the earlier failed reads
are discarded by overwriting `d_start`).  `main`'s `ERR_MESG` branch is
taken exactly when that concatenation is empty — reachable (all reads
empty), but never caused by a `None` return. -/
theorem C9_read_sml_total (reads : List (List Nat))
    (h : ∀ c ∈ reads.take 5, c ≠ startSyn ∧ findSub startSyn c = none) :
    (read_sml ⟨reads⟩).1
        = reads.getD 4 [] ++ reads.getD 5 [] ++ (reads.getD 6 []).take 3
    ∧ (producerError (read_sml ⟨reads⟩).1 = some "ERR_MESG"
        ↔ (read_sml ⟨reads⟩).1 = []) := by
  constructor
  · unfold read_sml
    rw [startLoop_noStart 5 reads [] (by norm_num) h]
    simp only [nextRead_eq, List.tail_drop, headD_drop]
  · simp only [producerError, pyTruthyBytes]
    rcases hx : (read_sml ⟨reads⟩).1 with _ | ⟨b, bs⟩ <;> simp

/-- C9 witness at a concrete 7-read source with no start marker. -/
theorem C9_read_sml_total_witness :
    (∀ c ∈ ([[7], [7], [7], [7], [7], [8], [9, 9, 9, 9]] :
        List (List Nat)).take 5,
      c ≠ startSyn ∧ findSub startSyn c = none)
    ∧ ((read_sml ⟨[[7], [7], [7], [7], [7], [8], [9, 9, 9, 9]]⟩).1
          = ([[7], [7], [7], [7], [7], [8], [9, 9, 9, 9]] :
              List (List Nat)).getD 4 []
            ++ ([[7], [7], [7], [7], [7], [8], [9, 9, 9, 9]] :
              List (List Nat)).getD 5 []
            ++ (([[7], [7], [7], [7], [7], [8], [9, 9, 9, 9]] :
              List (List Nat)).getD 6 []).take 3
       ∧ (producerError
            (read_sml ⟨[[7], [7], [7], [7], [7], [8], [9, 9, 9, 9]]⟩).1
              = some "ERR_MESG"
          ↔ (read_sml ⟨[[7], [7], [7], [7], [7], [8], [9, 9, 9, 9]]⟩).1
              = [])) :=
  ⟨by decide, C9_read_sml_total [[7], [7], [7], [7], [7], [8], [9, 9, 9, 9]]
    (by decide)⟩

/-! ## C4 — resync on leading garbage returns exactly the framed span -/

/-- C4: a stream holding leading garbage `g`, then the full span
`START ++ body ++ END ++ 3 trailer bytes` (the start marker occurring
first at the garbage boundary).  `read_sml` discards the garbage and
returns exactly the span. -/
theorem C4_resync_exact_span (g body trailer : List Nat)
    (hfind : findSub startSyn (g ++ startSyn) = some g.length)
    (htr : trailer.length = 3) :
    (read_sml ⟨[g ++ startSyn, body ++ endMsg, trailer]⟩).1
      = startSyn ++ (body ++ endMsg) ++ trailer := by
  have htake : trailer.take 3 = trailer := by
    rw [← htr]
    exact List.take_length trailer
  cases g with
  | nil =>
    simp [read_sml, startLoop, nextRead, htake]
  | cons a g' =>
    have hne : (a :: g') ++ startSyn ≠ startSyn := by
      intro heq
      have hl := congrArg List.length heq
      simp [startSyn, escapeSequence, startMessage] at hl
    have hlen : ((a :: g') ++ startSyn).length > 8 := by
      simp [startSyn, escapeSequence, startMessage]
    have hdrop : ((a :: g') ++ startSyn).drop (a :: g').length = startSyn :=
      List.drop_left _ _
    unfold read_sml
    rw [startLoop]
    rw [if_neg (by simp : ¬(false = true))]
    rw [nextRead_eq]
    simp only [List.headD_cons, List.tail_cons]
    rw [if_neg hne, if_pos hlen, hfind]
    simp only [hdrop]
    rw [startLoop]
    rw [if_pos rfl]
    simp [nextRead, htake]

/-- C4 witness: 20 bytes of garbage, then a concrete span. -/
theorem C4_resync_exact_span_witness :
    findSub startSyn (List.replicate 20 0x55 ++ startSyn)
        = some (List.replicate 20 (0x55 : Nat)).length
    ∧ ([0x00, 0xab, 0xcd] : List Nat).length = 3
    ∧ (read_sml ⟨[List.replicate 20 0x55 ++ startSyn,
        [0x76, 0x07] ++ endMsg, [0x00, 0xab, 0xcd]]⟩).1
      = startSyn ++ ([0x76, 0x07] ++ endMsg) ++ [0x00, 0xab, 0xcd] :=
  ⟨by decide, by decide,
    C4_resync_exact_span (List.replicate 20 0x55) [0x76, 0x07]
      [0x00, 0xab, 0xcd] (by decide) (by decide)⟩

/-! ## `dosml`: value computation and filtering (C5, C8) -/

/-- Helper: `tenPow` is the integer power `10 ^ s` in `ℚ`. -/
theorem tenPow_eq_zpow (s : Int) : tenPow s = (10 : ℚ) ^ s := by
  cases s with
  | ofNat n => simp [tenPow]
  | negSucc n => simp [tenPow, zpow_negSucc, one_div]

/-- Helper: rounding an integer is the identity. -/
theorem pyRoundHalfEven_intCast (z : Int) : pyRoundHalfEven (z : ℚ) = z := by
  simp [pyRoundHalfEven]

/-- Helper: the two-record scenario frame list, computed. -/
theorem dosml_scenario_frames :
    dosmlFrames [⟨"0100010800ff", 12345, -1⟩, ⟨"0100020800ff", 200, 0⟩]
      = [⟨"Verbrauch.total", 12345, true⟩,
         ⟨"Einspeisung.total", 2000, false⟩] := by
  have h1 : ((12345 : Int) : ℚ) * tenPow (-1) * 10 = ((12345 : Int) : ℚ) := by
    rw [tenPow_eq_zpow]
    norm_num
  have h2 : ((200 : Int) : ℚ) * tenPow 0 * 10 = ((2000 : Int) : ℚ) := by
    rw [tenPow_eq_zpow]
    norm_num
  simp only [dosmlFrames, List.filterMap_cons, List.filterMap_nil]
  rw [if_pos (by decide : ("0100010800ff" : String) ∈ OBIS_NAMES_KEYS)]
  rw [if_pos (by decide : ("0100020800ff" : String) ∈ OBIS_NAMES_KEYS)]
  rw [(by rfl : assocLookup "0100010800ff" OBIS_MAP_GRAPHITE
        = some "Verbrauch.total")]
  rw [(by rfl : assocLookup "0100020800ff" OBIS_MAP_GRAPHITE
        = some "Einspeisung.total")]
  simp only [mkFrame, h1, h2, pyRoundHalfEven_intCast]
  rfl

/-- C5: every record that passes the filter yields a metric whose value is
`round(mantissa * 10 ^ scale, 1)` (Python round-half-to-even at one
decimal, arithmetic exact in `ℚ`); and on the two-record scenario frame
exactly two metrics are produced, named `Verbrauch.total` and
`Einspeisung.total`, with values `1234.5` and `200.0`. -/
theorem C5_metric_value_rounding :
    (∀ (entries : List SmlListEntry) (e : SmlListEntry) (nm : String),
        e ∈ entries → e.obis ∈ OBIS_NAMES_KEYS →
        assocLookup e.obis OBIS_MAP_GRAPHITE = some nm →
        ∃ f, f ∈ dosmlFrames entries ∧ f.name = nm ∧
          gValue f = pyRound1 ((e.value : ℚ) * (10 : ℚ) ^ e.scaler))
    ∧ dosmlFrames [⟨"0100010800ff", 12345, -1⟩, ⟨"0100020800ff", 200, 0⟩]
        = [⟨"Verbrauch.total", 12345, true⟩,
           ⟨"Einspeisung.total", 2000, false⟩]
    ∧ gValue ⟨"Verbrauch.total", 12345, true⟩ = 1234.5
    ∧ gValue ⟨"Einspeisung.total", 2000, false⟩ = 200.0 := by
  refine ⟨?_, dosml_scenario_frames, ?_, ?_⟩
  · intro entries e nm he hkeys hlook
    refine ⟨mkFrame e nm, ?_, rfl, ?_⟩
    · unfold dosmlFrames
      exact List.mem_filterMap.mpr ⟨e, he, by rw [if_pos hkeys, hlook]⟩
    · simp [gValue, mkFrame, pyRound1, tenPow_eq_zpow]
  · show ((12345 : Int) : ℚ) / 10 = 1234.5
    norm_num
  · show ((2000 : Int) : ℚ) / 10 = 200.0
    norm_num

/-- C5 witness: the first scenario record, passed through the quantified
part of the claim. -/
theorem C5_metric_value_rounding_witness :
    (⟨"0100010800ff", 12345, -1⟩ : SmlListEntry)
        ∈ [(⟨"0100010800ff", 12345, -1⟩ : SmlListEntry),
           ⟨"0100020800ff", 200, 0⟩]
    ∧ ("0100010800ff" : String) ∈ OBIS_NAMES_KEYS
    ∧ assocLookup "0100010800ff" OBIS_MAP_GRAPHITE = some "Verbrauch.total"
    ∧ ∃ f, f ∈ dosmlFrames
          [(⟨"0100010800ff", 12345, -1⟩ : SmlListEntry),
           ⟨"0100020800ff", 200, 0⟩]
        ∧ f.name = "Verbrauch.total"
        ∧ gValue f = pyRound1
            (((⟨"0100010800ff", 12345, -1⟩ : SmlListEntry).value : ℚ)
              * (10 : ℚ) ^ (⟨"0100010800ff", 12345, -1⟩ :
                  SmlListEntry).scaler) :=
  ⟨by decide, by decide, by decide,
    C5_metric_value_rounding.1
      [⟨"0100010800ff", 12345, -1⟩, ⟨"0100020800ff", 200, 0⟩]
      ⟨"0100010800ff", 12345, -1⟩ "Verbrauch.total"
      (by decide) (by decide) (by decide)⟩

/-- Helper: every code the configured map knows is also in `OBIS_NAMES`,
so the `OBIS_NAMES` membership test never drops a configured record. -/
theorem assocLookup_some_mem_names (s nm : String)
    (h : assocLookup s OBIS_MAP_GRAPHITE = some nm) :
    s ∈ OBIS_NAMES_KEYS := by
  simp only [OBIS_MAP_GRAPHITE, assocLookup] at h
  split_ifs at h with h1 h2 h3
  · subst h1; decide
  · subst h2; decide
  · subst h3; decide

/-- Helper: `dosmlFrames` is exactly one metric per map-matching record. -/
theorem dosmlFrames_eq_filterMap (entries : List SmlListEntry) :
    dosmlFrames entries
      = entries.filterMap
          (fun e => (assocLookup e.obis OBIS_MAP_GRAPHITE).map (mkFrame e)) := by
  induction entries with
  | nil => rfl
  | cons e t ih =>
    simp only [dosmlFrames, List.filterMap_cons] at ih ⊢
    rcases hl : assocLookup e.obis OBIS_MAP_GRAPHITE with _ | nm
    · by_cases hm : e.obis ∈ OBIS_NAMES_KEYS <;> simp [hl, hm, ih]
    · have hm := assocLookup_some_mem_names e.obis nm hl
      simp [hl, hm, ih]

/-- C8: the filter produces exactly one metric per record whose code is in
the configured map (in the map's order), and nothing — with no error — for
every other record: `dosmlFrames` is precisely the `filterMap` of the map
lookup, and its length is the number of matching records. -/
theorem C8_one_metric_per_matching_record (entries : List SmlListEntry) :
    dosmlFrames entries
      = entries.filterMap
          (fun e => (assocLookup e.obis OBIS_MAP_GRAPHITE).map (mkFrame e))
    ∧ (dosmlFrames entries).length
      = (entries.filter
          (fun e => (assocLookup e.obis OBIS_MAP_GRAPHITE).isSome)).length := by
  refine ⟨dosmlFrames_eq_filterMap entries, ?_⟩
  rw [dosmlFrames_eq_filterMap entries]
  induction entries with
  | nil => rfl
  | cons e t ih =>
    rcases hl : assocLookup e.obis OBIS_MAP_GRAPHITE with _ | nm <;>
      simp [List.filterMap_cons, List.filter_cons, hl, ih]

/-! ## C7 — a failed serial open never reaches the `ERR_DEVICE` print -/

/-- C7: when `serial.Serial` raises, `open_serial` prints the exception and
returns `None`, `main` skips all frame reading and sets
`error = "ERR_DEVICE"` — but the subsequent `datetime.datetime.now()`
raises an uncaught `AttributeError` (`from datetime import datetime` binds
the class, which has no `datetime` attribute), so the process dies from
the traceback and the timestamped `ERR_DEVICE` line is never printed: the
only output is `open_serial`'s own exception print. -/
theorem C7_device_error_uncaught (e : String) :
    (mainDeviceFail e).2
      = Except.error ("AttributeError: type object 'datetime.datetime' "
          ++ "has no attribute '" ++ "datetime" ++ "'")
    ∧ (mainDeviceFail e).1 = ["Exception: " ++ e] := by
  constructor <;>
    simp [mainDeviceFail, open_serial, pyGetattrDatetime, datetimeClassAttrs]

/-! ## C10 — shape of the items the producer enqueues -/

/-- Helper: `splitOnCh` on a separator-free string is one piece. -/
theorem splitOnCh_no_sep (sep : Char) (s : List Char) (h : sep ∉ s) :
    splitOnCh sep s = [s] := by
  induction s with
  | nil => rfl
  | cons c t ih =>
    have hc : c ≠ sep := fun hh => h (hh ▸ List.mem_cons_self c t)
    have ht : sep ∉ t := fun hh => h (List.mem_cons_of_mem c hh)
    simp only [splitOnCh, if_neg hc, ih ht]

/-- Helper: `splitOnCh` peels one separator-free piece. -/
theorem splitOnCh_append (sep : Char) (l r : List Char) (h : sep ∉ l) :
    splitOnCh sep (l ++ sep :: r) = l :: splitOnCh sep r := by
  induction l with
  | nil => simp [splitOnCh]
  | cons c t ih =>
    have hc : c ≠ sep := fun hh => h (hh ▸ List.mem_cons_self c t)
    have ht : sep ∉ t := fun hh => h (List.mem_cons_of_mem c hh)
    simp only [List.cons_append, splitOnCh, if_neg hc, List.append_eq]
    rw [ih ht]

/-- Helper: Python `split()` of three space-free nonempty tokens. -/
theorem pySplitWs_three (a b c : List Char)
    (ha : ' ' ∉ a) (hb : ' ' ∉ b) (hc : ' ' ∉ c)
    (ha' : a ≠ []) (hb' : b ≠ []) (hc' : c ≠ []) :
    pySplitWs (a ++ ' ' :: (b ++ ' ' :: c)) = [a, b, c] := by
  unfold pySplitWs
  rw [splitOnCh_append ' ' a _ ha, splitOnCh_append ' ' b _ hb,
    splitOnCh_no_sep ' ' c hc]
  have e1 : a.isEmpty = false := by simp [ha']
  have e2 : b.isEmpty = false := by simp [hb']
  have e3 : c.isEmpty = false := by simp [hc']
  simp [List.filter, e1, e2, e3]

/-- Helper: a digit character. -/
theorem digitChar_isDigit (m : Nat) (h : m < 10) :
    (Char.ofNat (48 + m)).isDigit = true := by
  interval_cases m <;> decide

/-- Helper: with enough fuel, every rendered character is a digit. -/
theorem natCharsAux_digits :
    ∀ (fuel n : Nat), n < fuel →
      ∀ c ∈ natCharsAux fuel n, c.isDigit = true := by
  intro fuel
  induction fuel with
  | zero => omega
  | succ f ih =>
    intro n h c hc
    rw [natCharsAux] at hc
    by_cases h10 : n < 10
    · rw [if_pos h10] at hc
      simp only [List.mem_singleton] at hc
      subst hc
      exact digitChar_isDigit n h10
    · rw [if_neg h10] at hc
      rcases List.mem_append.mp hc with h1 | h2
      · exact ih (n / 10) (by omega) c h1
      · simp only [List.mem_singleton] at h2
        subst h2
        exact digitChar_isDigit (n % 10) (Nat.mod_lt _ (by norm_num))

/-- Helper: with enough fuel the rendering is nonempty. -/
theorem natCharsAux_ne_nil (fuel n : Nat) (h : n < fuel) :
    natCharsAux fuel n ≠ [] := by
  cases fuel with
  | zero => omega
  | succ f =>
    rw [natCharsAux]
    split_ifs
    · simp
    · simp

/-- Helper: `natChars` renders only digits. -/
theorem natChars_digits (n : Nat) : ∀ c ∈ natChars n, c.isDigit = true :=
  natCharsAux_digits (n + 1) n (by omega)

/-- Helper: `natChars` is nonempty. -/
theorem natChars_ne_nil (n : Nat) : natChars n ≠ [] :=
  natCharsAux_ne_nil (n + 1) n (by omega)

/-- Helper: a digit is not a space, a dot or a minus sign. -/
theorem isDigit_ne (c : Char) (h : c.isDigit = true) :
    c ≠ ' ' ∧ c ≠ '.' ∧ c ≠ '-' := by
  refine ⟨?_, ?_, ?_⟩ <;> intro hh <;> rw [hh] at h <;>
    exact absurd h (by decide)

/-- Helper: `takeWhile isDigit` splits a digit run off a non-digit rest. -/
theorem takeWhile_digit_append (l r : List Char)
    (hl : ∀ c ∈ l, c.isDigit = true)
    (hr : ∀ c, r.head? = some c → c.isDigit = false) :
    (l ++ r).takeWhile Char.isDigit = l
    ∧ (l ++ r).dropWhile Char.isDigit = r := by
  induction l with
  | nil =>
    simp only [List.nil_append]
    cases r with
    | nil => simp
    | cons x xs =>
      have hx : x.isDigit = false := hr x rfl
      simp [List.takeWhile, List.dropWhile, hx]
  | cons c t ih =>
    have hcd : c.isDigit = true := hl c (List.mem_cons_self c t)
    have iht := ih (fun d hd => hl d (List.mem_cons_of_mem c hd))
    simp [List.takeWhile, List.dropWhile, hcd, iht.1, iht.2]

/-- Helper: digit strings contain no space. -/
theorem all_digits_no_space (l : List Char)
    (hl : ∀ c ∈ l, c.isDigit = true) : ' ' ∉ l :=
  fun hm => absurd (hl ' ' hm) (by decide)

/-- Helper: a nonempty digit string is a float literal. -/
theorem floatLit_digits (l : List Char) (hne : l ≠ [])
    (hl : ∀ c ∈ l, c.isDigit = true) : floatLit l = true := by
  obtain ⟨c, cs, rfl⟩ := List.exists_cons_of_ne_nil hne
  have hcd := hl c (List.mem_cons_self c cs)
  have hcm : c ≠ '-' := (isDigit_ne c hcd).2.2
  have htw := takeWhile_digit_append (c :: cs) [] hl
    (by intro d hd; simp at hd)
  rw [List.append_nil] at htw
  simp [floatLit, hcm, htw.1, htw.2]

/-- Helper: a sign before a nonempty digit string is a float literal. -/
theorem floatLit_neg_digits (l : List Char) (hne : l ≠ [])
    (hl : ∀ c ∈ l, c.isDigit = true) : floatLit ('-' :: l) = true := by
  have htw := takeWhile_digit_append l [] hl (by intro d hd; simp at hd)
  rw [List.append_nil] at htw
  simp [floatLit, htw.1, htw.2, hne]

/-- Helper: `digits.digits` is a float literal. -/
theorem floatLit_int_frac (a b : List Char) (hna : a ≠ []) (hnb : b ≠ [])
    (ha : ∀ c ∈ a, c.isDigit = true) (hb : ∀ c ∈ b, c.isDigit = true) :
    floatLit (a ++ '.' :: b) = true := by
  obtain ⟨c, cs, rfl⟩ := List.exists_cons_of_ne_nil hna
  have hcd := ha c (List.mem_cons_self c cs)
  have hcm : c ≠ '-' := (isDigit_ne c hcd).2.2
  have htw := takeWhile_digit_append (c :: cs) ('.' :: b) ha
    (by intro d hd; simp at hd; rw [← hd]; decide)
  rw [List.cons_append] at htw ⊢
  simp only [floatLit, List.head?_cons, Option.some.injEq, hcm, if_false]
  rw [htw.1, htw.2]
  simp [hnb, List.all_eq_true]
  exact hb

/-- Helper: `-digits.digits` is a float literal. -/
theorem floatLit_neg_int_frac (a b : List Char) (hna : a ≠ []) (hnb : b ≠ [])
    (ha : ∀ c ∈ a, c.isDigit = true) (hb : ∀ c ∈ b, c.isDigit = true) :
    floatLit ('-' :: (a ++ '.' :: b)) = true := by
  have htw := takeWhile_digit_append a ('.' :: b) ha
    (by intro d hd; simp at hd; rw [← hd]; decide)
  simp only [floatLit, List.head?_cons, Option.some.injEq, if_true,
    List.tail_cons]
  rw [htw.1, htw.2]
  have hane : a.isEmpty = false := by simp [hna]
  simp [hnb, hane, List.all_eq_true]
  exact hb

/-- Helper: Python `str` of an int is space-free, nonempty and
float-parsable. -/
theorem intChars_facts (z : Int) :
    ' ' ∉ intChars z ∧ intChars z ≠ [] ∧ floatLit (intChars z) = true := by
  by_cases hz : z < 0
  · simp only [intChars, if_pos hz, List.singleton_append]
    refine ⟨?_, by simp, floatLit_neg_digits _ (natChars_ne_nil _)
      (natChars_digits _)⟩
    intro hm
    rcases List.mem_cons.mp hm with h | h
    · exact absurd h (by decide)
    · exact all_digits_no_space _ (natChars_digits _) h
  · simp only [intChars, if_neg hz, List.nil_append]
    exact ⟨all_digits_no_space _ (natChars_digits _), natChars_ne_nil _,
      floatLit_digits _ (natChars_ne_nil _) (natChars_digits _)⟩

/-- Helper: `floatChars` in `sign ++ (intpart ++ '.' :: fracpart)` form. -/
theorem floatChars_shape (k : Int) :
    floatChars k = (if k < 0 then ['-'] else []) ++
      (natChars (k.natAbs / 10) ++ '.' :: natChars (k.natAbs % 10)) := by
  simp [floatChars, List.append_assoc]

/-- Helper: Python `str` of a tenths float is space-free, nonempty and
float-parsable. -/
theorem floatChars_facts (k : Int) :
    ' ' ∉ floatChars k ∧ floatChars k ≠ []
    ∧ floatLit (floatChars k) = true := by
  rw [floatChars_shape]
  have hq := natChars_digits (k.natAbs / 10)
  have hr := natChars_digits (k.natAbs % 10)
  have hnq := natChars_ne_nil (k.natAbs / 10)
  have hnr := natChars_ne_nil (k.natAbs % 10)
  have hnospace :
      ' ' ∉ natChars (k.natAbs / 10) ++ '.' :: natChars (k.natAbs % 10) := by
    intro hm
    rcases List.mem_append.mp hm with h | h
    · exact all_digits_no_space _ hq h
    · rcases List.mem_cons.mp h with h' | h'
      · exact absurd h' (by decide)
      · exact all_digits_no_space _ hr h'
  by_cases hk : k < 0
  · simp only [if_pos hk, List.singleton_append]
    refine ⟨?_, by simp, floatLit_neg_int_frac _ _ hnq hnr hq hr⟩
    intro hm
    rcases List.mem_cons.mp hm with h | h
    · exact absurd h (by decide)
    · exact hnospace h
  · simp only [if_neg hk, List.nil_append]
    exact ⟨hnospace,
      List.append_ne_nil_of_right_ne_nil _ (List.cons_ne_nil _ _),
      floatLit_int_frac _ _ hnq hnr hq hr⟩

/-- Helper: every name the map can return. -/
theorem assocLookup_values (s nm : String)
    (h : assocLookup s OBIS_MAP_GRAPHITE = some nm) :
    nm = "Verbrauch.total" ∨ nm = "Einspeisung.total"
    ∨ nm = "Wirkleistung.aktuell" := by
  simp only [OBIS_MAP_GRAPHITE, assocLookup] at h
  split_ifs at h
  · exact Or.inl (Option.some.inj h).symm
  · exact Or.inr (Or.inl (Option.some.inj h).symm)
  · exact Or.inr (Or.inr (Option.some.inj h).symm)

/-- Helper: every produced frame carries one of the three mapped names. -/
theorem dosml_name_mem (entries : List SmlListEntry) (f : GFrame)
    (hf : f ∈ dosmlFrames entries) :
    f.name = "Verbrauch.total" ∨ f.name = "Einspeisung.total"
    ∨ f.name = "Wirkleistung.aktuell" := by
  unfold dosmlFrames at hf
  obtain ⟨e, _, hfe⟩ := List.mem_filterMap.mp hf
  by_cases hm : e.obis ∈ OBIS_NAMES_KEYS
  · rw [if_pos hm] at hfe
    rcases hl : assocLookup e.obis OBIS_MAP_GRAPHITE with _ | nm
    · rw [hl] at hfe
      simp at hfe
    · rw [hl] at hfe
      simp only [Option.some.injEq] at hfe
      have hname : f.name = nm := by
        rw [← hfe]
        rfl
      rw [hname]
      exact assocLookup_values e.obis nm hl
  · rw [if_neg hm] at hfe
    simp at hfe

/-- Helper: the metric field `Strom.<name>` is space-free, nonempty and
dot-splits into exactly three parts, for each of the three mapped names. -/
theorem metric_facts (f : GFrame)
    (h : f.name = "Verbrauch.total" ∨ f.name = "Einspeisung.total"
      ∨ f.name = "Wirkleistung.aktuell") :
    ' ' ∉ metricChars f ∧ metricChars f ≠ []
    ∧ (splitOnCh '.' (metricChars f)).length = 3 := by
  rcases h with h | h | h <;> simp only [metricChars, h] <;>
    exact ⟨by decide, by decide, by decide⟩

/-- Helper: the rendered value field is space-free, nonempty and
float-parsable, whether rendered as int or float. -/
theorem valChars_facts (f : GFrame) :
    ' ' ∉ valChars f ∧ valChars f ≠ []
    ∧ floatLit (valChars f) = true := by
  unfold valChars
  by_cases hb : f.isFloat
  · rw [if_pos hb]
    exact floatChars_facts f.k
  · rw [if_neg hb]
    exact intChars_facts (f.k.fdiv 10)

/-- C10: every queue item the producer builds from a decoded frame has the
exact shape `Strom.<tag>.<field> <value> <timestamp>`: the consumer's
whitespace split yields exactly the three fields, the metric name
dot-splits into exactly three parts, and both numeric fields are float
literals (the timestamp hypotheses state what Python's float rendering of
`datetime.now().timestamp()` always satisfies). -/
theorem C10_item_shape (entries : List SmlListEntry) (ts : List Char)
    (f : GFrame) (hts1 : ' ' ∉ ts) (hts2 : ts ≠ [])
    (hts3 : floatLit ts = true) (hf : f ∈ dosmlFrames entries) :
    pySplitWs (renderFrame ts f) = [metricChars f, valChars f, ts]
    ∧ (splitOnCh '.' (metricChars f)).length = 3
    ∧ floatLit (valChars f) = true
    ∧ floatLit ts = true := by
  have hnm := dosml_name_mem entries f hf
  have hm := metric_facts f hnm
  have hv := valChars_facts f
  refine ⟨?_, hm.2.2, hv.2.2, hts3⟩
  have hr : renderFrame ts f
      = metricChars f ++ ' ' :: (valChars f ++ ' ' :: ts) := by
    simp [renderFrame, List.append_assoc]
  rw [hr]
  exact pySplitWs_three _ _ _ hm.1 hv.1 hts1 hm.2.1 hv.2.1 hts2

/-- C10 witness: the first scenario frame with a concrete timestamp. -/
theorem C10_item_shape_witness :
    ' ' ∉ "1697040000.123456".data
    ∧ "1697040000.123456".data ≠ []
    ∧ floatLit "1697040000.123456".data = true
    ∧ (⟨"Verbrauch.total", 12345, true⟩ : GFrame) ∈ dosmlFrames
        [⟨"0100010800ff", 12345, -1⟩, ⟨"0100020800ff", 200, 0⟩]
    ∧ (pySplitWs (renderFrame "1697040000.123456".data
          ⟨"Verbrauch.total", 12345, true⟩)
        = [metricChars ⟨"Verbrauch.total", 12345, true⟩,
           valChars ⟨"Verbrauch.total", 12345, true⟩,
           "1697040000.123456".data]
      ∧ (splitOnCh '.'
          (metricChars ⟨"Verbrauch.total", 12345, true⟩)).length = 3
      ∧ floatLit (valChars ⟨"Verbrauch.total", 12345, true⟩) = true
      ∧ floatLit "1697040000.123456".data = true) :=
  ⟨by decide, by decide, by decide,
    by rw [dosml_scenario_frames]; decide,
    C10_item_shape [⟨"0100010800ff", 12345, -1⟩, ⟨"0100020800ff", 200, 0⟩]
      "1697040000.123456".data ⟨"Verbrauch.total", 12345, true⟩
      (by decide) (by decide) (by decide)
      (by rw [dosml_scenario_frames]; decide)⟩

end Landis
